import Mathlib

/-!
Shallow embedding of the resilience core of the observability-hub
Vertex AI client (src/vertex-ai/python/prediction_client.py and
src/vertex-ai/python/vertex_ai_client.py): the CircuitBreaker state
machine, the tenacity retry loop around the breaker-guarded prediction
request, failure classification, sequential batching and parallel
fan-out.  Time is modelled as a natural-number clock; the remote
invoker is an oracle mapping the invocation counter to a raw outcome
(a response value or a raw exception message string).
-/

/-- States of the circuit breaker, as in the source `CircuitBreakerState`
enum: CLOSED (normal operation), OPEN (failing, reject requests),
HALF_OPEN (testing recovery). -/
inductive CircuitBreakerState where
  | CLOSED
  | OPEN
  | HALF_OPEN
deriving DecidableEq, Repr

/-- The mutable fields and configuration of the source `CircuitBreaker`
class: `failure_threshold` and `recovery_timeout` are fixed at
construction; `failure_count`, `last_failure_time` and `state` are the
mutable health-tracking fields. -/
structure CircuitBreaker where
  failure_threshold : Nat
  recovery_timeout : Nat
  failure_count : Nat
  last_failure_time : Option Nat
  state : CircuitBreakerState
deriving DecidableEq, Repr

/-- The constructor `CircuitBreaker.__init__`: failure count 0, no last
failure time, CLOSED state. -/
def CircuitBreaker.init (failure_threshold recovery_timeout : Nat) : CircuitBreaker :=
  { failure_threshold := failure_threshold
    recovery_timeout := recovery_timeout
    failure_count := 0
    last_failure_time := none
    state := .CLOSED }

/-- The source `CircuitBreaker._should_attempt_reset`: true when a last
failure time is recorded and the elapsed time since it is at least the
recovery timeout. -/
def CircuitBreaker.should_attempt_reset (cb : CircuitBreaker) (now : Nat) : Bool :=
  match cb.last_failure_time with
  | none => false
  | some t => (now : Int) - (t : Int) ≥ (cb.recovery_timeout : Int)

/-- The source `CircuitBreaker._on_success`: reset the failure count and
close the breaker. -/
def CircuitBreaker.on_success (cb : CircuitBreaker) : CircuitBreaker :=
  { cb with failure_count := 0, state := .CLOSED }

/-- The source `CircuitBreaker._on_failure`: increment the failure count,
record the failure time, and open the breaker when the count has reached
the threshold. -/
def CircuitBreaker.on_failure (cb : CircuitBreaker) (now : Nat) : CircuitBreaker :=
  let cb1 := { cb with failure_count := cb.failure_count + 1, last_failure_time := some now }
  if cb1.failure_count ≥ cb1.failure_threshold then { cb1 with state := .OPEN } else cb1

/-- The exception taxonomy of the source: `QuotaExceededError`,
`ModelUnavailableError` and the generic `PredictionError` (all raised by
`_make_prediction_request` or by the breaker), plus tenacity
`RetryError`, which the retry decorator raises when the attempt budget
is exhausted (the default `reraise=False` wraps the last failure). -/
inductive PredErr where
  | QuotaExceededError (msg : String)
  | ModelUnavailableError (msg : String)
  | PredictionError (msg : String)
  | RetryError (last : PredErr)
deriving DecidableEq, Repr

deriving instance DecidableEq for Except

/-- Result of one `CircuitBreaker.call`: the breaker state afterwards,
the surfaced result, and whether the wrapped function was invoked. -/
structure CallResult (ρ : Type) where
  cb : CircuitBreaker
  result : Except PredErr ρ
  invoked : Bool
deriving DecidableEq, Repr

/-- The source `CircuitBreaker.call`, with the wrapped function given by
the outcome it would produce if invoked.  While OPEN: transition to
HALF_OPEN and proceed when `_should_attempt_reset` holds, otherwise
reject with `ModelUnavailableError("Circuit breaker is OPEN")` without
invoking the function.  Otherwise invoke; success runs `_on_success` and
returns the value, failure runs `_on_failure` and re-raises the same
error (the `expected_exception` is `Exception`, so every failure is
counted). -/
def CircuitBreaker.call (cb : CircuitBreaker) (now : Nat) (outcome : Except PredErr ρ) :
    CallResult ρ :=
  let gate : Option CircuitBreaker :=
    if cb.state = .OPEN then
      if cb.should_attempt_reset now then some { cb with state := .HALF_OPEN } else none
    else
      some cb
  match gate with
  | none => ⟨cb, .error (.ModelUnavailableError "Circuit breaker is OPEN"), false⟩
  | some cb1 =>
    match outcome with
    | .ok r => ⟨cb1.on_success, .ok r, true⟩
    | .error e => ⟨cb1.on_failure now, .error e, true⟩

/-- Character-list comparison: the first list starts the second. -/
def leadsWith : List Char → List Char → Bool
  | [], _ => true
  | _ :: _, [] => false
  | p :: ps, c :: cs => p == c && leadsWith ps cs

/-- Character-list search: the first list occurs contiguously in the second. -/
def occursIn (pat : List Char) : List Char → Bool
  | [] => pat.isEmpty
  | c :: cs => leadsWith pat (c :: cs) || occursIn pat cs

/-- Substring test used to model the Python `in` operator on strings. -/
def containsSub (s pat : String) : Bool :=
  occursIn pat.data s.data

/-- ASCII model of the Python `str.lower()` used by the classification. -/
def lowerStr (s : String) : String :=
  ⟨s.data.map Char.toLower⟩

/-- The failure classification of `_make_prediction_request`: quota or
429 signals map to `QuotaExceededError`, 503 or unavailable signals to
`ModelUnavailableError`, anything else to the generic `PredictionError`,
with the same message prefixes as the source. -/
def classify_error (error_msg : String) : PredErr :=
  if containsSub (lowerStr error_msg) "quota" || containsSub error_msg "429" then
    .QuotaExceededError ("Quota exceeded: " ++ error_msg)
  else if containsSub error_msg "503" || containsSub (lowerStr error_msg) "unavailable" then
    .ModelUnavailableError ("Model unavailable: " ++ error_msg)
  else
    .PredictionError ("Prediction failed: " ++ error_msg)

/-- The source `_make_prediction_request`: forwards a successful raw
response and classifies a raw failure message into the typed taxonomy. -/
def make_prediction_request (raw : Except String ρ) : Except PredErr ρ :=
  match raw with
  | .ok r => .ok r
  | .error m => .error (classify_error m)

example : classify_error "Quota limit hit" =
    .QuotaExceededError "Quota exceeded: Quota limit hit" := by decide
example : classify_error "HTTP 429 too many requests" =
    .QuotaExceededError "Quota exceeded: HTTP 429 too many requests" := by decide
example : classify_error "backend 503" =
    .ModelUnavailableError "Model unavailable: backend 503" := by decide
example : classify_error "Service Unavailable" =
    .ModelUnavailableError "Model unavailable: Service Unavailable" := by decide
example : classify_error "boom" = .PredictionError "Prediction failed: boom" := by decide

/-- The tenacity `wait_exponential` strategy: for the just-failed attempt
number n the computed sleep is `max (max 0 min) (min (multiplier * 2 ^ (n - 1)) max)`
(tenacity computes `exp_base ** (attempt_number - 1)` with `exp_base = 2`
and clamps the product between its min and max bounds). -/
def wait_exponential (multiplier mn mx attempt_number : Nat) : Nat :=
  max (max 0 mn) (min (multiplier * 2 ^ (attempt_number - 1)) mx)

/-- The wait configured on `PredictionClient.predict`:
`wait_exponential(multiplier=1, min=1, max=10)`. -/
def predict_wait (n : Nat) : Nat :=
  wait_exponential 1 1 10 n

/-- Result of one logical `predict` call: final breaker state, final
clock (advanced by the backoff sleeps), number of invoker invocations
performed, surfaced result, number of attempts issued, and the sleeps
performed between attempts, in order. -/
structure PredictResult (ρ : Type) where
  cb : CircuitBreaker
  now : Nat
  ninv : Nat
  result : Except PredErr ρ
  attempts : Nat
  waits : List Nat
deriving DecidableEq, Repr

/-- The tenacity `Retrying` loop of the `@retry` decorator on `predict`,
with `retry_if_exception_type((RequestException, Exception))` (so every
failure is retried): attempt n runs the decorated body - here
`CircuitBreaker.call` around `_make_prediction_request` - and returns
immediately on success; on failure, when the attempt number has reached
the stop bound (`stop_after_attempt`), the loop raises tenacity
`RetryError` wrapping the last failure (the default `reraise=False`);
otherwise it sleeps `waitFn n` and issues attempt n+1.  The first
argument is the remaining-attempt fuel (bound minus current attempt
number), the second the current attempt number. -/
def retry_loop (waitFn : Nat → Nat) (invoker : Nat → Except String ρ) :
    Nat → Nat → CircuitBreaker → Nat → Nat → PredictResult ρ
  | 0, _, cb, now, ninv => ⟨cb, now, ninv, .error (.PredictionError "no attempts"), 0, []⟩
  | fuel + 1, n, cb, now, ninv =>
    let c := cb.call now (make_prediction_request (invoker ninv))
    let ninv1 := if c.invoked then ninv + 1 else ninv
    match c.result with
    | .ok r => ⟨c.cb, now, ninv1, .ok r, 1, []⟩
    | .error e =>
      if fuel = 0 then
        ⟨c.cb, now, ninv1, .error (.RetryError e), 1, []⟩
      else
        let w := waitFn n
        let rest := retry_loop waitFn invoker fuel (n + 1) c.cb (now + w) ninv1
        ⟨rest.cb, rest.now, rest.ninv, rest.result, rest.attempts + 1, w :: rest.waits⟩

/-- The source `PredictionClient.predict`: the retry decorator
(`stop_after_attempt(3)`, `wait_exponential(multiplier=1, min=1,
max=10)`) wrapping the body that executes `_make_prediction_request`
under `self.circuit_breaker.call`.  The invoker oracle maps the
invocation counter to the raw outcome of the underlying SDK call. -/
def predict (invoker : Nat → Except String ρ) (cb : CircuitBreaker) (now : Nat) :
    PredictResult ρ :=
  retry_loop predict_wait invoker 3 1 cb now 0

/-- The retry loop alone, without the breaker inside: used only to build
the comparison model `predictSpecNesting` below.  Returns the result,
the final clock and the number of invocations. -/
def retry_pure (waitFn : Nat → Nat) (invoker : Nat → Except String ρ) :
    Nat → Nat → Nat → Nat → Except PredErr ρ × Nat × Nat
  | 0, _, now, ninv => (.error (.PredictionError "no attempts"), now, ninv)
  | fuel + 1, n, now, ninv =>
    match make_prediction_request (invoker ninv) with
    | .ok r => (.ok r, now, ninv + 1)
    | .error e =>
      if fuel = 0 then (.error (.RetryError e), now, ninv + 1)
      else retry_pure waitFn invoker fuel (n + 1) (now + waitFn n) (ninv + 1)

/-- Modelled from the spec words, for comparison with the source order
(claim about control flow): the circuit breaker as the outermost
resilience layer, wrapping the whole retry loop, so the breaker observes
a single outcome per logical call and, when it rejects, the retry loop
never runs (zero invocations).  Returns final breaker, result,
invocation count. -/
def predictSpecNesting (invoker : Nat → Except String ρ) (cb : CircuitBreaker) (now : Nat) :
    CircuitBreaker × Except PredErr ρ × Nat :=
  let r := retry_pure predict_wait invoker 3 1 now 0
  let c := cb.call now r.1
  (c.cb, c.result, if c.invoked then r.2.2 else 0)

/-- Fold a sequence of calls (time, outcome the wrapped function would
produce) through the breaker, keeping the evolving breaker state. -/
def CircuitBreaker.runCalls (cb : CircuitBreaker) : List (Nat × Except PredErr Unit) → CircuitBreaker
  | [] => cb
  | (t, oc) :: rest => ((cb.call t oc).cb).runCalls rest

/-- Breaker states reachable from a freshly constructed breaker by any
sequence of calls.  The gate constructor exposes the transient HALF_OPEN
state that `call` enters, while OPEN with the recovery timeout elapsed,
before invoking the wrapped function. -/
inductive Reachable (th tm : Nat) : CircuitBreaker → Prop where
  | init : Reachable th tm (CircuitBreaker.init th tm)
  | gate (cb : CircuitBreaker) (now : Nat) :
      Reachable th tm cb → cb.state = .OPEN → cb.should_attempt_reset now = true →
      Reachable th tm { cb with state := .HALF_OPEN }
  | step (cb : CircuitBreaker) (now : Nat) (oc : Except PredErr Unit) :
      Reachable th tm cb → Reachable th tm (cb.call now oc).cb

/-- A breaker that is OPEN with the counter at threshold and a recorded
failure time: the shape every OPEN state reachable under failures has. -/
def goodOpen (cb : CircuitBreaker) : Prop :=
  cb.state = .OPEN ∧ cb.failure_threshold ≤ cb.failure_count ∧ cb.last_failure_time ≠ none

/-- Fuel-indexed worker for `chunkList`: the fuel dominates the list
length, making the recursion structural (and so kernel-computable). -/
def chunkListAux (bs : Nat) : Nat → List α → List (List α)
  | _, [] => []
  | 0, _ :: _ => []
  | fuel + 1, x :: xs => ((x :: xs).take bs) :: chunkListAux bs fuel (xs.drop (bs - 1))

/-- The chunking performed by the `predict_batch` loop
`for i in range(0, len(instances), batch_size)`: consecutive windows of
`bs` instances, the last window possibly shorter.  Matches the source
slices `instances[i:i + batch_size]` for every `bs` of at least 1. -/
def chunkList (bs : Nat) (l : List α) : List (List α) :=
  chunkListAux bs l.length l

/-- One sequential pass of `predict_batch` over the chunk list: returns
the chunks on which `predict` was actually called, in order, and either
the accumulated responses (one per chunk, in chunk order) or the first
error, which aborts the remaining chunks. -/
def predict_batch_go (predictFn : List ι → Except PredErr ρ) :
    List (List ι) → List (List ι) × Except PredErr (List ρ)
  | [] => ([], .ok [])
  | c :: cs =>
    match predictFn c with
    | .error e => ([c], .error e)
    | .ok r =>
      let rest := predict_batch_go predictFn cs
      (c :: rest.1, rest.2.map fun rs => r :: rs)

/-- The source `PredictionClient.predict_batch`: split the instances into
consecutive chunks of at most `batch_size` and call `predict`
sequentially on each chunk, accumulating one response per chunk and
propagating the first failure (fail fast, remaining chunks are never
submitted). -/
def predict_batch (predictFn : List ι → Except PredErr ρ) (batch_size : Nat)
    (instances : List ι) : List (List ι) × Except PredErr (List ρ) :=
  predict_batch_go predictFn (chunkList batch_size instances)

/-- The source `VertexAIClient.predict_batch_parallel`: one task per
sub-batch, gathered with `return_exceptions=True` - asyncio.gather
returns outcomes positionally in task submission order regardless of
completion order - after which every exception slot is replaced by an
empty list and every successful slot keeps its prediction list. -/
def predict_batch_parallel (predictFn : List ι → Except PredErr (List ρ))
    (batch_instances : List (List ι)) : List (List ρ) :=
  batch_instances.map fun instances =>
    match predictFn instances with
    | .ok r => r
    | .error _ => []

/-- A predict stub for the concrete batch scenario of the spec: succeeds
with the chunk length except on the chunk whose first instance is 32
(the second chunk of range 100 at batch size 32), where it fails. -/
def failSecond (c : List Nat) : Except PredErr Nat :=
  if c.headI = 32 then .error (.PredictionError "chunk 2 failed") else .ok c.length

lemma call_ok_of_ne_open {cb : CircuitBreaker} (h : cb.state ≠ .OPEN) (now : Nat) (r : ρ) :
    cb.call now (.ok r) = ⟨cb.on_success, .ok r, true⟩ := by
  simp [CircuitBreaker.call, h]

lemma call_error_of_ne_open {cb : CircuitBreaker} (h : cb.state ≠ .OPEN) (now : Nat)
    (e : PredErr) :
    cb.call now (.error e : Except PredErr ρ) = ⟨cb.on_failure now, .error e, true⟩ := by
  simp [CircuitBreaker.call, h]

lemma call_open_reject {cb : CircuitBreaker} (h : cb.state = .OPEN)
    (hr : cb.should_attempt_reset now = false) (oc : Except PredErr ρ) :
    cb.call now oc = ⟨cb, .error (.ModelUnavailableError "Circuit breaker is OPEN"), false⟩ := by
  simp [CircuitBreaker.call, h, hr]

lemma call_open_reset {cb : CircuitBreaker} (h : cb.state = .OPEN)
    (hr : cb.should_attempt_reset now = true) (oc : Except PredErr ρ) :
    cb.call now oc = ({ cb with state := .HALF_OPEN } : CircuitBreaker).call now oc := by
  simp [CircuitBreaker.call, h, hr]

lemma call_cases (cb : CircuitBreaker) (now : Nat) (oc : Except PredErr ρ) :
    (cb.call now oc).cb = cb ∨
    (cb.call now oc).cb = cb.on_success ∨
    (cb.call now oc).cb = cb.on_failure now ∨
    (cb.call now oc).cb = ({ cb with state := .HALF_OPEN } : CircuitBreaker).on_success ∨
    (cb.call now oc).cb = ({ cb with state := .HALF_OPEN } : CircuitBreaker).on_failure now := by
  by_cases h : cb.state = .OPEN
  · by_cases hr : cb.should_attempt_reset now
    · rw [call_open_reset h hr]
      cases oc with
      | ok r => rw [call_ok_of_ne_open (by simp) now r]; right; right; right; left; rfl
      | error e => rw [call_error_of_ne_open (by simp) now e]; right; right; right; right; rfl
    · rw [call_open_reject h (by simpa using hr)]; left; rfl
  · cases oc with
    | ok r => rw [call_ok_of_ne_open h now r]; right; left; rfl
    | error e => rw [call_error_of_ne_open h now e]; right; right; left; rfl

lemma on_failure_threshold (cb : CircuitBreaker) (now : Nat) :
    (cb.on_failure now).failure_threshold = cb.failure_threshold := by
  simp only [CircuitBreaker.on_failure]
  split <;> rfl

lemma on_failure_timeout (cb : CircuitBreaker) (now : Nat) :
    (cb.on_failure now).recovery_timeout = cb.recovery_timeout := by
  simp only [CircuitBreaker.on_failure]
  split <;> rfl

lemma call_cb_threshold (cb : CircuitBreaker) (now : Nat) (oc : Except PredErr ρ) :
    (cb.call now oc).cb.failure_threshold = cb.failure_threshold := by
  rcases call_cases cb now oc with h | h | h | h | h <;> rw [h] <;>
    simp [CircuitBreaker.on_success, on_failure_threshold]

lemma call_cb_timeout (cb : CircuitBreaker) (now : Nat) (oc : Except PredErr ρ) :
    (cb.call now oc).cb.recovery_timeout = cb.recovery_timeout := by
  rcases call_cases cb now oc with h | h | h | h | h <;> rw [h] <;>
    simp [CircuitBreaker.on_success, on_failure_timeout]

lemma on_failure_def (cb : CircuitBreaker) (now : Nat) :
    cb.on_failure now =
      if cb.failure_count + 1 ≥ cb.failure_threshold then
        { cb with
            failure_count := cb.failure_count + 1
            last_failure_time := some now
            state := .OPEN }
      else
        { cb with
            failure_count := cb.failure_count + 1
            last_failure_time := some now } := rfl

lemma reset_iff {cb : CircuitBreaker} {t : Nat} (hlast : cb.last_failure_time = some t)
    (now : Nat) :
    cb.should_attempt_reset now = true ↔ (cb.recovery_timeout : Int) ≤ (now : Int) - t := by
  simp [CircuitBreaker.should_attempt_reset, hlast, ge_iff_le]

/-- The inductive invariant of the breaker: the configuration fields never
change, and while OPEN or HALF_OPEN the failure count has reached the
threshold and a last failure time is recorded. -/
lemma reach_inv {th tm : Nat} {cb : CircuitBreaker} (h : Reachable th tm cb) :
    cb.failure_threshold = th ∧ cb.recovery_timeout = tm ∧
      ((cb.state = .OPEN ∨ cb.state = .HALF_OPEN) →
        th ≤ cb.failure_count ∧ cb.last_failure_time ≠ none) := by
  induction h with
  | init =>
      refine ⟨rfl, rfl, ?_⟩
      rintro (hs | hs) <;> simp [CircuitBreaker.init] at hs
  | gate cb now _ hopen hres ih =>
      obtain ⟨hth, htm, hinv⟩ := ih
      exact ⟨hth, htm, fun _ => hinv (Or.inl hopen)⟩
  | step cb now oc _ ih =>
      obtain ⟨hth, htm, hinv⟩ := ih
      by_cases hop : cb.state = .OPEN
      · by_cases hres : cb.should_attempt_reset now
        · rw [call_open_reset hop hres]
          obtain ⟨hc, _⟩ := hinv (Or.inl hop)
          cases oc with
          | ok r =>
              rw [call_ok_of_ne_open (by simp) now r]
              refine ⟨hth, htm, ?_⟩
              rintro (hs | hs) <;> simp [CircuitBreaker.on_success] at hs
          | error e =>
              rw [call_error_of_ne_open (by simp) now e]
              dsimp only
              rw [on_failure_def]
              split <;> rename_i hcond
              · exact ⟨hth, htm, fun _ => ⟨by show th ≤ cb.failure_count + 1; omega, by simp⟩⟩
              · exact ⟨hth, htm, fun _ => ⟨by show th ≤ cb.failure_count + 1; omega, by simp⟩⟩
        · rw [call_open_reject hop (by simpa using hres)]
          exact ⟨hth, htm, hinv⟩
      · cases oc with
        | ok r =>
            rw [call_ok_of_ne_open hop now r]
            refine ⟨hth, htm, ?_⟩
            rintro (hs | hs) <;> simp [CircuitBreaker.on_success] at hs
        | error e =>
            rw [call_error_of_ne_open hop now e]
            dsimp only
            rw [on_failure_def]
            split <;> rename_i hcond
            · exact ⟨hth, htm, fun _ => ⟨by show th ≤ cb.failure_count + 1; omega, by simp⟩⟩
            · refine ⟨hth, htm, ?_⟩
              rintro (hs | hs)
              · exact absurd hs hop
              · obtain ⟨hc, _⟩ := hinv (Or.inr hs)
                exact ⟨by show th ≤ cb.failure_count + 1; omega, by simp⟩

/-- C10: implicit invariant of the CircuitBreaker.  In every state
reachable from the initial Closed state by any sequence of calls
(including the transient HALF_OPEN state entered by a call), whenever
the state is OPEN or HALF_OPEN the failure counter is at least the
configured failure threshold and the last-failure timestamp is set;
consequently any failure handled while HALF_OPEN re-opens the breaker,
because `_on_failure` sets OPEN exactly when the incremented counter
has reached the threshold. -/
theorem C10_breaker_invariant {th tm : Nat} {cb : CircuitBreaker}
    (h : Reachable th tm cb) (hs : cb.state = .OPEN ∨ cb.state = .HALF_OPEN) :
    th ≤ cb.failure_count ∧ cb.last_failure_time ≠ none ∧
      (∀ now : Nat, (cb.on_failure now).state = .OPEN) := by
  obtain ⟨hth, _, hinv⟩ := reach_inv h
  obtain ⟨hc, hl⟩ := hinv hs
  refine ⟨hc, hl, ?_⟩
  intro now
  rw [on_failure_def, if_pos (by omega)]

/-- Witness for C10 at a concrete reachable OPEN state: threshold 1,
one failed call at time 0. -/
theorem C10_breaker_invariant_witness :
    1 ≤ (((CircuitBreaker.init 1 60).call 0
        (.error (.PredictionError "x") : Except PredErr Unit)).cb).failure_count ∧
    (((CircuitBreaker.init 1 60).call 0
        (.error (.PredictionError "x") : Except PredErr Unit)).cb).last_failure_time ≠ none ∧
    (∀ now : Nat,
      ((((CircuitBreaker.init 1 60).call 0
          (.error (.PredictionError "x") : Except PredErr Unit)).cb).on_failure now).state =
        .OPEN) :=
  C10_breaker_invariant
    (Reachable.step (CircuitBreaker.init 1 60) 0 (.error (.PredictionError "x")) Reachable.init)
    (Or.inl (by decide))

/-- C2: a call made while the breaker is OPEN with last failure recorded
at time t.  If the elapsed time is less than recovery_timeout the call
is rejected without invoking the wrapped function, failing with the
service-unavailable kind (`ModelUnavailableError`) carrying the message
"Circuit breaker is OPEN" (equal to "circuit breaker is open" up to
letter case), and the breaker is unchanged.  If the elapsed time is at
least recovery_timeout, the breaker transitions to HALF_OPEN and the
call proceeds: the wrapped function is invoked and the call behaves as
the HALF_OPEN call on the same outcome, surfacing that outcome. -/
theorem C2_open_gate {ρ : Type} (cb : CircuitBreaker) (t now : Nat)
    (hst : cb.state = .OPEN) (hlast : cb.last_failure_time = some t)
    (oc : Except PredErr ρ) :
    (((now : Int) - t < (cb.recovery_timeout : Int)) →
      (cb.call now oc).invoked = false ∧
      (cb.call now oc).result = .error (.ModelUnavailableError "Circuit breaker is OPEN") ∧
      lowerStr "Circuit breaker is OPEN" = "circuit breaker is open" ∧
      (cb.call now oc).cb = cb) ∧
    (((cb.recovery_timeout : Int) ≤ (now : Int) - t) →
      (cb.call now oc).invoked = true ∧
      cb.call now oc = ({ cb with state := .HALF_OPEN } : CircuitBreaker).call now oc ∧
      (cb.call now oc).result = oc) := by
  constructor
  · intro hlt
    have hres : cb.should_attempt_reset now = false := by
      rw [← Bool.not_eq_true, reset_iff hlast]
      omega
    rw [call_open_reject hst hres]
    exact ⟨rfl, rfl, by decide, rfl⟩
  · intro hge
    have hres : cb.should_attempt_reset now = true := (reset_iff hlast now).mpr hge
    rw [call_open_reset hst hres]
    cases oc with
    | ok r => rw [call_ok_of_ne_open (by simp) now r]; exact ⟨rfl, rfl, rfl⟩
    | error e => rw [call_error_of_ne_open (by simp) now e]; exact ⟨rfl, rfl, rfl⟩

/-- Witness for C2 at a concrete OPEN breaker (threshold 5, timeout 60,
last failure at time 0): a call at time 30 is rejected without
invocation, a call at time 60 is invoked. -/
theorem C2_open_gate_witness :
    ((⟨5, 60, 5, some 0, .OPEN⟩ : CircuitBreaker).call 30
      (.ok 7 : Except PredErr Nat)).invoked = false ∧
    ((⟨5, 60, 5, some 0, .OPEN⟩ : CircuitBreaker).call 60
      (.ok 7 : Except PredErr Nat)).invoked = true := by
  constructor
  · exact ((C2_open_gate _ 0 30 rfl rfl _).1 (by decide)).1
  · exact ((C2_open_gate _ 0 60 rfl rfl _).2 (by decide)).1

/-- C4: a trial call made in the (reachable) HALF_OPEN state is invoked;
on success the failure counter is reset to 0 and the breaker closes; on
failure the counter is incremented, the failure timestamp is recorded,
and the breaker transitions back to OPEN regardless of the outcome
value, because the counter is already at the threshold in every
reachable HALF_OPEN state. -/
theorem C4_halfopen_trial {th tm : Nat} {cb : CircuitBreaker} (h : Reachable th tm cb)
    (hs : cb.state = .HALF_OPEN) (now : Nat) (oc : Except PredErr Unit) :
    (cb.call now oc).invoked = true ∧
    (∀ r, oc = .ok r →
      (cb.call now oc).cb.failure_count = 0 ∧ (cb.call now oc).cb.state = .CLOSED) ∧
    (∀ e, oc = .error e →
      (cb.call now oc).cb.failure_count = cb.failure_count + 1 ∧
      (cb.call now oc).cb.last_failure_time = some now ∧
      (cb.call now oc).cb.state = .OPEN) := by
  have hne : cb.state ≠ .OPEN := by rw [hs]; intro hcontra; cases hcontra
  obtain ⟨hth, _, hinv⟩ := reach_inv h
  obtain ⟨hc, _⟩ := hinv (Or.inr hs)
  refine ⟨?_, ?_, ?_⟩
  · cases oc with
    | ok r => rw [call_ok_of_ne_open hne now r]
    | error e => rw [call_error_of_ne_open hne now e]
  · rintro r rfl
    rw [call_ok_of_ne_open hne now r]
    exact ⟨rfl, rfl⟩
  · rintro e rfl
    rw [call_error_of_ne_open hne now e]
    dsimp only
    rw [on_failure_def, if_pos (by omega)]
    exact ⟨rfl, rfl, rfl⟩

/-- Witness for C4 at a concrete reachable HALF_OPEN state (threshold 1,
timeout 60, one failure at time 0, gate passed at time 60). -/
theorem C4_halfopen_trial_witness :
    ((⟨1, 60, 1, some 0, .HALF_OPEN⟩ : CircuitBreaker).call 100
      (.error (.PredictionError "y") : Except PredErr Unit)).invoked = true ∧
    (∀ r, (.error (.PredictionError "y") : Except PredErr Unit) = .ok r →
      ((⟨1, 60, 1, some 0, .HALF_OPEN⟩ : CircuitBreaker).call 100
        (.error (.PredictionError "y") : Except PredErr Unit)).cb.failure_count = 0 ∧
      ((⟨1, 60, 1, some 0, .HALF_OPEN⟩ : CircuitBreaker).call 100
        (.error (.PredictionError "y") : Except PredErr Unit)).cb.state = .CLOSED) ∧
    (∀ e, (.error (.PredictionError "y") : Except PredErr Unit) = .error e →
      ((⟨1, 60, 1, some 0, .HALF_OPEN⟩ : CircuitBreaker).call 100
        (.error (.PredictionError "y") : Except PredErr Unit)).cb.failure_count = 1 + 1 ∧
      ((⟨1, 60, 1, some 0, .HALF_OPEN⟩ : CircuitBreaker).call 100
        (.error (.PredictionError "y") : Except PredErr Unit)).cb.last_failure_time = some 100 ∧
      ((⟨1, 60, 1, some 0, .HALF_OPEN⟩ : CircuitBreaker).call 100
        (.error (.PredictionError "y") : Except PredErr Unit)).cb.state = .OPEN) :=
  C4_halfopen_trial
    (Reachable.gate _ 60
      (Reachable.step (CircuitBreaker.init 1 60) 0 (.error (.PredictionError "x"))
        Reachable.init)
      (by decide) (by decide))
    rfl 100 (.error (.PredictionError "y"))

lemma goodOpen_call_error {cb : CircuitBreaker} (h : goodOpen cb) (t : Nat) (e : PredErr) :
    goodOpen (cb.call t (.error e : Except PredErr Unit)).cb := by
  obtain ⟨hst, hc, hl⟩ := h
  by_cases hres : cb.should_attempt_reset t
  · rw [call_open_reset hst hres, call_error_of_ne_open (by simp) t e]
    dsimp only
    rw [on_failure_def, if_pos (by show cb.failure_count + 1 ≥ cb.failure_threshold; omega)]
    exact ⟨rfl, by show cb.failure_threshold ≤ cb.failure_count + 1; omega, by simp⟩
  · rw [call_open_reject hst (by simpa using hres)]
    exact ⟨hst, hc, hl⟩

lemma goodOpen_runCalls {ts : List (Nat × Except PredErr Unit)} :
    ∀ {cb : CircuitBreaker}, goodOpen cb → (∀ p ∈ ts, ∃ e, p.2 = Except.error e) →
      goodOpen (cb.runCalls ts) := by
  induction ts with
  | nil => intro cb h _; exact h
  | cons p rest ih =>
      intro cb h hfail
      obtain ⟨t, oc⟩ := p
      obtain ⟨e, he⟩ := hfail (t, oc) (List.mem_cons_self _ _)
      dsimp only at he
      subst he
      simp only [CircuitBreaker.runCalls]
      exact ih (goodOpen_call_error h t e) fun q hq => hfail q (List.mem_cons_of_mem _ hq)

lemma runCalls_threshold (ts : List (Nat × Except PredErr Unit)) :
    ∀ cb : CircuitBreaker, (cb.runCalls ts).failure_threshold = cb.failure_threshold := by
  induction ts with
  | nil => intro cb; rfl
  | cons p rest ih =>
      intro cb
      obtain ⟨t, oc⟩ := p
      simp only [CircuitBreaker.runCalls]
      rw [ih, call_cb_threshold]

lemma runCalls_timeout (ts : List (Nat × Except PredErr Unit)) :
    ∀ cb : CircuitBreaker, (cb.runCalls ts).recovery_timeout = cb.recovery_timeout := by
  induction ts with
  | nil => intro cb; rfl
  | cons p rest ih =>
      intro cb
      obtain ⟨t, oc⟩ := p
      simp only [CircuitBreaker.runCalls]
      rw [ih, call_cb_timeout]

lemma runCalls_from_closed (ts : List (Nat × Except PredErr Unit)) :
    ∀ cb : CircuitBreaker, cb.state = .CLOSED →
      cb.failure_count < cb.failure_threshold →
      (∀ p ∈ ts, ∃ e, p.2 = Except.error e) →
      goodOpen (cb.runCalls ts) ∨
        ((cb.runCalls ts).state = .CLOSED ∧
          (cb.runCalls ts).failure_count = cb.failure_count + ts.length ∧
          cb.failure_count + ts.length < cb.failure_threshold) := by
  induction ts with
  | nil =>
      intro cb hcl hlt _
      right
      exact ⟨hcl, rfl, hlt⟩
  | cons p rest ih =>
      intro cb hcl hlt hfail
      obtain ⟨t, oc⟩ := p
      obtain ⟨e, he⟩ := hfail (t, oc) (List.mem_cons_self _ _)
      dsimp only at he
      subst he
      simp only [CircuitBreaker.runCalls]
      rw [call_error_of_ne_open (by simp [hcl]) t e]
      dsimp only
      rw [on_failure_def]
      split <;> rename_i hcond
      · left
        refine goodOpen_runCalls ⟨rfl, ?_, by simp⟩
          fun q hq => hfail q (List.mem_cons_of_mem _ hq)
        show cb.failure_threshold ≤ cb.failure_count + 1
        omega
      · rcases ih { cb with
              failure_count := cb.failure_count + 1
              last_failure_time := some t } hcl
          (by show cb.failure_count + 1 < cb.failure_threshold; omega)
          (fun q hq => hfail q (List.mem_cons_of_mem _ hq)) with hgood | ⟨h1, h2, h3⟩
        · exact Or.inl hgood
        · right
          refine ⟨h1, ?_, ?_⟩
          · rw [h2]
            show cb.failure_count + 1 + rest.length = cb.failure_count + (rest.length + 1)
            omega
          · simp only [List.length_cons]
            have : cb.failure_count + 1 + rest.length < cb.failure_threshold := h3
            omega

/-- C3 counterexample: with the default configuration (threshold 5,
recovery timeout 60), after N = 5 consecutive wrapped-call failures at
time 0 the breaker is OPEN, yet the (N+1)-th call, made at time 60, is
NOT rejected: the wrapped function is invoked (the recovery timeout has
elapsed, so the breaker moves to HALF_OPEN and proceeds), refuting the
unconditional rejection stated by the claim. -/
theorem C3_counterexample :
    ((CircuitBreaker.init 5 60).runCalls
        (List.replicate 5 (0, Except.error (PredErr.PredictionError "boom")))).state = .OPEN ∧
    (((CircuitBreaker.init 5 60).runCalls
        (List.replicate 5 (0, Except.error (PredErr.PredictionError "boom")))).call 60
        (Except.error (PredErr.PredictionError "boom") : Except PredErr Unit)).invoked = true := by
  decide

/-- C3 (amended): starting from CLOSED, a failure of the wrapped call is
invoked, increments the failure counter, records the failure timestamp,
and opens the breaker exactly when the counter reaches the threshold;
and for every sequence of N consecutive wrapped-call failures from a
fresh breaker with N at least the (positive) threshold, the breaker ends
OPEN with its counter at least the threshold, and the (N+1)-th call is
rejected without invoking the wrapped function provided that call occurs
before recovery_timeout has elapsed since the last recorded failure (the
proviso forced by the counterexample). -/
theorem C3_consecutive_failures :
    (∀ (cb : CircuitBreaker) (t : Nat) (e : PredErr),
      cb.state = .CLOSED →
        (cb.call t (.error e : Except PredErr Unit)).invoked = true ∧
        (cb.call t (.error e : Except PredErr Unit)).cb.failure_count = cb.failure_count + 1 ∧
        (cb.call t (.error e : Except PredErr Unit)).cb.last_failure_time = some t ∧
        ((cb.call t (.error e : Except PredErr Unit)).cb.state = .OPEN ↔
          cb.failure_threshold ≤ cb.failure_count + 1)) ∧
    (∀ (th tm : Nat) (ts : List (Nat × Except PredErr Unit)) (now : Nat)
      (oc : Except PredErr Unit),
      1 ≤ th → th ≤ ts.length →
      (∀ p ∈ ts, ∃ e, p.2 = Except.error e) →
      (∀ s, ((CircuitBreaker.init th tm).runCalls ts).last_failure_time = some s →
        (now : Int) - (s : Int) < (tm : Int)) →
      ((CircuitBreaker.init th tm).runCalls ts).state = .OPEN ∧
      th ≤ ((CircuitBreaker.init th tm).runCalls ts).failure_count ∧
      (((CircuitBreaker.init th tm).runCalls ts).call now oc).invoked = false ∧
      (((CircuitBreaker.init th tm).runCalls ts).call now oc).result =
        .error (.ModelUnavailableError "Circuit breaker is OPEN") ∧
      (((CircuitBreaker.init th tm).runCalls ts).call now oc).cb =
        (CircuitBreaker.init th tm).runCalls ts) := by
  constructor
  · intro cb t e hcl
    rw [call_error_of_ne_open (by simp [hcl]) t e]
    dsimp only
    rw [on_failure_def]
    refine ⟨rfl, ?_, ?_, ?_⟩
    · split <;> rfl
    · split <;> rfl
    · constructor
      · intro hopen
        by_contra hlt
        rw [if_neg (by omega)] at hopen
        rw [show ({ cb with
            failure_count := cb.failure_count + 1
            last_failure_time := some t } : CircuitBreaker).state = cb.state from rfl, hcl]
          at hopen
        cases hopen
      · intro hge
        rw [if_pos (by omega)]
  · intro th tm ts now oc hpos hlen hfail hwin
    rcases runCalls_from_closed ts (CircuitBreaker.init th tm) rfl
        (by show (0 : Nat) < th; omega) hfail with hgood | ⟨_, _, hbad⟩
    · obtain ⟨hst, hc, hl⟩ := hgood
      have hth := runCalls_threshold ts (CircuitBreaker.init th tm)
      have htm := runCalls_timeout ts (CircuitBreaker.init th tm)
      obtain ⟨s, hlast⟩ := Option.ne_none_iff_exists'.mp hl
      have hres : ((CircuitBreaker.init th tm).runCalls ts).should_attempt_reset now = false := by
        rw [← Bool.not_eq_true, reset_iff hlast]
        rw [show ((CircuitBreaker.init th tm).runCalls ts).recovery_timeout = tm from htm]
        have := hwin s hlast
        omega
      rw [call_open_reject hst hres]
      refine ⟨hst, ?_, rfl, rfl, rfl⟩
      exact le_of_eq_of_le hth.symm hc
    · exact absurd hbad (by simp [CircuitBreaker.init]; omega)

/-- Witness for C3 at threshold 1, timeout 60: one failure at time 0,
then a call at time 30 is rejected without invocation. -/
theorem C3_consecutive_failures_witness :
    (((CircuitBreaker.init 1 60).runCalls
        [(0, Except.error (PredErr.PredictionError "z"))]).call 30
      (.ok () : Except PredErr Unit)).invoked = false := by
  refine ((C3_consecutive_failures.2 1 60 [(0, Except.error (PredErr.PredictionError "z"))] 30
    (.ok ()) (by decide) (by decide) ?_ ?_).2.2.1)
  · rintro p hp
    rcases List.mem_singleton.mp hp with rfl
    exact ⟨_, rfl⟩
  · intro s hs
    rw [show (((CircuitBreaker.init 1 60).runCalls
        [(0, Except.error (PredErr.PredictionError "z"))]).last_failure_time) = some 0
      from by decide] at hs
    have h0 := Option.some.inj hs
    subst h0
    decide

lemma retry_loop_ok (waitFn : Nat → Nat) (invoker : Nat → Except String ρ)
    (fuel n now ninv : Nat) (cb : CircuitBreaker) (r : ρ)
    (hok : (cb.call now (make_prediction_request (invoker ninv))).result = .ok r) :
    retry_loop waitFn invoker (fuel + 1) n cb now ninv =
      ⟨(cb.call now (make_prediction_request (invoker ninv))).cb, now,
        if (cb.call now (make_prediction_request (invoker ninv))).invoked then ninv + 1
        else ninv,
        .ok r, 1, []⟩ := by
  simp only [retry_loop, hok]

lemma retry_loop_rejected_step (waitFn : Nat → Nat) (invoker : Nat → Except String ρ)
    (fuel n now ninv : Nat) (cb : CircuitBreaker)
    (hc : cb.call now (make_prediction_request (invoker ninv)) =
      ⟨cb, .error (.ModelUnavailableError "Circuit breaker is OPEN"), false⟩) :
    retry_loop waitFn invoker (fuel + 1) n cb now ninv =
      if fuel = 0 then
        ⟨cb, now, ninv,
          .error (.RetryError (.ModelUnavailableError "Circuit breaker is OPEN")), 1, []⟩
      else
        let rest := retry_loop waitFn invoker fuel (n + 1) cb (now + waitFn n) ninv
        ⟨rest.cb, rest.now, rest.ninv, rest.result, rest.attempts + 1,
          waitFn n :: rest.waits⟩ := by
  by_cases hf : fuel = 0 <;> simp [retry_loop, hc, hf]

lemma retry_loop_error_step (waitFn : Nat → Nat) (invoker : Nat → Except String ρ)
    (fuel n now ninv : Nat) (cb : CircuitBreaker) (e : PredErr)
    (he : (cb.call now (make_prediction_request (invoker ninv))).result = .error e) :
    retry_loop waitFn invoker (fuel + 1 + 1) n cb now ninv =
      (let c := cb.call now (make_prediction_request (invoker ninv))
       let rest := retry_loop waitFn invoker (fuel + 1) (n + 1) c.cb (now + waitFn n)
         (if c.invoked then ninv + 1 else ninv)
       ⟨rest.cb, rest.now, rest.ninv, rest.result, rest.attempts + 1,
         waitFn n :: rest.waits⟩) := by
  conv_lhs => rw [retry_loop]
  simp only [he]
  rw [if_neg (by omega : ¬fuel + 1 = 0)]

lemma retry_loop_spec (waitFn : Nat → Nat) (invoker : Nat → Except String ρ) :
    ∀ (fuel n now ninv : Nat) (cb : CircuitBreaker),
      1 ≤ (retry_loop waitFn invoker (fuel + 1) n cb now ninv).attempts ∧
      (retry_loop waitFn invoker (fuel + 1) n cb now ninv).attempts ≤ fuel + 1 ∧
      (retry_loop waitFn invoker (fuel + 1) n cb now ninv).waits.length =
        (retry_loop waitFn invoker (fuel + 1) n cb now ninv).attempts - 1 ∧
      ∀ i (h : i < (retry_loop waitFn invoker (fuel + 1) n cb now ninv).waits.length),
        (retry_loop waitFn invoker (fuel + 1) n cb now ninv).waits.get ⟨i, h⟩ =
          waitFn (n + i) := by
  intro fuel
  induction fuel with
  | zero =>
      intro n now ninv cb
      cases hres : (cb.call now (make_prediction_request (invoker ninv))).result with
      | ok r =>
          rw [retry_loop_ok waitFn invoker 0 n now ninv cb r hres]
          exact ⟨Nat.le_refl 1, Nat.le_refl 1, rfl, fun i h => by simp at h⟩
      | error e =>
          refine ⟨?_, ?_, ?_, ?_⟩ <;> simp [retry_loop, hres]
  | succ fuel ih =>
      intro n now ninv cb
      cases hres : (cb.call now (make_prediction_request (invoker ninv))).result with
      | ok r =>
          rw [retry_loop_ok waitFn invoker (fuel + 1) n now ninv cb r hres]
          exact ⟨Nat.le_refl 1, by show (1 : Nat) ≤ fuel + 1 + 1; omega, rfl,
            fun i h => by simp at h⟩
      | error e =>
          rw [retry_loop_error_step waitFn invoker fuel n now ninv cb e hres]
          dsimp only
          obtain ⟨ih1, ih2, ih3, ih4⟩ := ih (n + 1) (now + waitFn n)
            (if (cb.call now (make_prediction_request (invoker ninv))).invoked then ninv + 1
              else ninv)
            (cb.call now (make_prediction_request (invoker ninv))).cb
          refine ⟨by omega, by omega, by simp [ih3]; omega, ?_⟩
          intro i h
          match i with
          | 0 => simp
          | Nat.succ j =>
              simp only [List.get_cons_succ]
              rw [ih4 j (by simpa using h)]
              congr 1
              omega

lemma predict_wait_succ (i : Nat) : predict_wait (i + 1) = min 10 (1 * 2 ^ i) := by
  have h1 : 1 ≤ 2 ^ i := Nat.one_le_two_pow
  simp only [predict_wait, wait_exponential, Nat.add_sub_cancel, one_mul]
  omega

lemma predict_wait_le_ten (n : Nat) : predict_wait n ≤ 10 := by
  have h1 : 1 ≤ 2 ^ (n - 1) := Nat.one_le_two_pow
  simp only [predict_wait, wait_exponential, one_mul]
  omega

lemma retry_loop_all_fail (waitFn : Nat → Nat) (m : String) :
    ∀ (fuel n now ninv : Nat) (cb : CircuitBreaker),
      cb.state = .CLOSED →
      cb.failure_count + (fuel + 1) < cb.failure_threshold →
      (retry_loop waitFn (fun _ => (Except.error m : Except String ρ)) (fuel + 1) n
          cb now ninv).attempts = fuel + 1 ∧
      (retry_loop waitFn (fun _ => (Except.error m : Except String ρ)) (fuel + 1) n
          cb now ninv).ninv = ninv + (fuel + 1) ∧
      (retry_loop waitFn (fun _ => (Except.error m : Except String ρ)) (fuel + 1) n
          cb now ninv).cb.failure_count = cb.failure_count + (fuel + 1) ∧
      (retry_loop waitFn (fun _ => (Except.error m : Except String ρ)) (fuel + 1) n
          cb now ninv).cb.state = .CLOSED ∧
      (retry_loop waitFn (fun _ => (Except.error m : Except String ρ)) (fuel + 1) n
          cb now ninv).result = .error (.RetryError (classify_error m)) := by
  intro fuel
  induction fuel with
  | zero =>
      intro n now ninv cb hcl hth
      have hne : cb.state ≠ .OPEN := by simp [hcl]
      have hc2 : cb.call now (Except.error (classify_error m) : Except PredErr ρ) =
          ⟨cb.on_failure now, .error (classify_error m), true⟩ :=
        call_error_of_ne_open hne now _
      have hcb1 : cb.on_failure now =
          { cb with failure_count := cb.failure_count + 1, last_failure_time := some now } := by
        rw [on_failure_def, if_neg (by omega)]
      have hstep : retry_loop waitFn (fun _ => (Except.error m : Except String ρ)) (0 + 1) n
          cb now ninv =
          ⟨cb.on_failure now, now, ninv + 1, .error (.RetryError (classify_error m)), 1, []⟩ := by
        conv_lhs => rw [retry_loop]
        simp only [make_prediction_request, hc2, ite_true]
      rw [hstep, hcb1]
      exact ⟨rfl, rfl, rfl, hcl, rfl⟩
  | succ fuel ih =>
      intro n now ninv cb hcl hth
      have hne : cb.state ≠ .OPEN := by simp [hcl]
      have hc2 : cb.call now (Except.error (classify_error m) : Except PredErr ρ) =
          ⟨cb.on_failure now, .error (classify_error m), true⟩ :=
        call_error_of_ne_open hne now _
      have hcb1 : cb.on_failure now =
          { cb with failure_count := cb.failure_count + 1, last_failure_time := some now } := by
        rw [on_failure_def, if_neg (by omega)]
      rw [retry_loop_error_step waitFn _ fuel n now ninv cb (classify_error m)
        (by simp only [make_prediction_request, hc2])]
      simp only [make_prediction_request, hc2, ite_true]
      rw [hcb1]
      obtain ⟨ih1, ih2, ih3, ih4, ih5⟩ := ih (n + 1) (now + waitFn n) (ninv + 1)
        { cb with failure_count := cb.failure_count + 1, last_failure_time := some now }
        hcl (by show cb.failure_count + 1 + (fuel + 1) < cb.failure_threshold; omega)
      refine ⟨by rw [ih1], by rw [ih2]; omega, ?_, ih4, ih5⟩
      rw [ih3]
      show cb.failure_count + 1 + (fuel + 1) = cb.failure_count + (fuel + 1 + 1)
      omega

lemma retry_loop_all_rejected (invoker : Nat → Except String ρ) :
    ∀ (fuel n now ninv : Nat) (cb : CircuitBreaker),
      (∀ (tt ninv2 : Nat), now ≤ tt → tt ≤ now + 10 * (fuel + 1) →
        cb.call tt (make_prediction_request (invoker ninv2)) =
          ⟨cb, .error (.ModelUnavailableError "Circuit breaker is OPEN"), false⟩) →
      (retry_loop predict_wait invoker (fuel + 1) n cb now ninv).ninv = ninv ∧
      (retry_loop predict_wait invoker (fuel + 1) n cb now ninv).cb = cb ∧
      (retry_loop predict_wait invoker (fuel + 1) n cb now ninv).attempts = fuel + 1 ∧
      (retry_loop predict_wait invoker (fuel + 1) n cb now ninv).result =
        .error (.RetryError (.ModelUnavailableError "Circuit breaker is OPEN")) := by
  intro fuel
  induction fuel with
  | zero =>
      intro n now ninv cb hrej
      have hc := hrej now ninv (Nat.le_refl now) (by omega)
      rw [retry_loop_rejected_step predict_wait invoker 0 n now ninv cb hc]
      rw [if_pos rfl]
      exact ⟨rfl, rfl, rfl, rfl⟩
  | succ fuel ih =>
      intro n now ninv cb hrej
      have hc := hrej now ninv (Nat.le_refl now) (by omega)
      rw [retry_loop_rejected_step predict_wait invoker (fuel + 1) n now ninv cb hc]
      rw [if_neg (by omega)]
      dsimp only
      have hw := predict_wait_le_ten n
      obtain ⟨ih1, ih2, ih3, ih4⟩ := ih (n + 1) (now + predict_wait n) ninv cb
        (fun tt ninv2 h1 h2 => hrej tt ninv2 (by omega) (by omega))
      exact ⟨ih1, ih2, by rw [ih3], ih4⟩

/-- C6: for every logical predict call, the retry loop issues at least
one and at most max_attempts = 3 attempts; the sleep recorded between
attempt n and attempt n+1 equals min(max_wait, base_wait * 2 ^ (n - 1))
with base_wait 1 and max_wait 10 (the i-th recorded sleep corresponds to
n = i + 1); and any successful attempt ends the loop immediately, with
no further attempts, invocations or sleeps. -/
theorem C6_retry_policy (invoker : Nat → Except String ρ) (cb : CircuitBreaker) (now : Nat) :
    (1 ≤ (predict invoker cb now).attempts ∧ (predict invoker cb now).attempts ≤ 3) ∧
    ((predict invoker cb now).waits.length = (predict invoker cb now).attempts - 1 ∧
      ∀ i (h : i < (predict invoker cb now).waits.length),
        (predict invoker cb now).waits.get ⟨i, h⟩ = min 10 (1 * 2 ^ i)) ∧
    (∀ (fuel n ninv now2 : Nat) (cb2 : CircuitBreaker) (r : ρ),
      (cb2.call now2 (make_prediction_request (invoker ninv))).result = .ok r →
      retry_loop predict_wait invoker (fuel + 1) n cb2 now2 ninv =
        ⟨(cb2.call now2 (make_prediction_request (invoker ninv))).cb, now2,
          if (cb2.call now2 (make_prediction_request (invoker ninv))).invoked then ninv + 1
          else ninv, .ok r, 1, []⟩) := by
  simp only [predict]
  obtain ⟨h1, h2, h3, h4⟩ := retry_loop_spec predict_wait invoker 2 1 now 0 cb
  refine ⟨⟨h1, h2⟩, ⟨h3, ?_⟩, ?_⟩
  · intro i h
    rw [h4 i h, show 1 + i = i + 1 by omega]
    exact predict_wait_succ i
  · intro fuel n ninv now2 cb2 r hok
    exact retry_loop_ok predict_wait invoker fuel n now2 ninv cb2 r hok

/-- Witness for C6: attempt bound at an always-failing input, and the
short-circuit equation at an immediately succeeding input. -/
theorem C6_retry_policy_witness :
    (predict (fun _ => (Except.error "boom" : Except String Unit))
        (CircuitBreaker.init 10 60) 0).attempts ≤ 3 ∧
    retry_loop predict_wait (fun _ => (Except.ok 5 : Except String Nat)) (2 + 1) 1
        (CircuitBreaker.init 10 60) 0 0 =
      ⟨((CircuitBreaker.init 10 60).call 0
          (make_prediction_request ((fun _ => (Except.ok 5 : Except String Nat)) 0))).cb, 0,
        if ((CircuitBreaker.init 10 60).call 0
            (make_prediction_request ((fun _ => (Except.ok 5 : Except String Nat)) 0))).invoked
        then 0 + 1 else 0, .ok 5, 1, []⟩ := by
  constructor
  · exact (C6_retry_policy (fun _ => (Except.error "boom" : Except String Unit))
      (CircuitBreaker.init 10 60) 0).1.2
  · exact (C6_retry_policy (fun _ => (Except.ok 5 : Except String Nat))
      (CircuitBreaker.init 10 60) 0).2.2 2 1 0 0 (CircuitBreaker.init 10 60) 5 (by decide)

/-- C5: evaluation at the failing input of the exhausted-retry path.
With a fresh breaker and an invoker failing every attempt with a generic
message, the caller does NOT receive the last observed failure
(`PredictionError "Prediction failed: boom"`): it receives the tenacity
`RetryError` wrapping it, a synthesized retries-exhausted error of a
different kind, because the retry decorator leaves `reraise` at its
default `False`. -/
theorem C5_retry_error_wrapping :
    (predict (fun _ => (Except.error "boom" : Except String Unit))
        (CircuitBreaker.init 5 60) 0).result =
      .error (.RetryError (.PredictionError "Prediction failed: boom")) ∧
    (Except.error (PredErr.RetryError (.PredictionError "Prediction failed: boom")) :
        Except PredErr Unit) ≠
      .error (.PredictionError "Prediction failed: boom") := by
  exact ⟨by decide, by decide⟩

/-- C7: every raw failure message surfaced by the remote invoker is
classified by `_make_prediction_request` into exactly one of the three
kinds, decided by inspecting the message content: `QuotaExceededError`
when it carries a quota or 429 signal, otherwise `ModelUnavailableError`
when it carries a 503 or unavailable signal, otherwise the generic
`PredictionError`; and this classified kind is what the retry and
breaker layers surface for the final observed failure (inside the
retry-exhaustion wrapper, see the C5 finding). -/
theorem C7_error_classification (m : String) :
    (∀ (ρ : Type), make_prediction_request (Except.error m : Except String ρ) =
      .error (classify_error m)) ∧
    ((containsSub (lowerStr m) "quota" || containsSub m "429") = true →
      classify_error m = .QuotaExceededError ("Quota exceeded: " ++ m)) ∧
    ((containsSub (lowerStr m) "quota" || containsSub m "429") = false →
      (containsSub m "503" || containsSub (lowerStr m) "unavailable") = true →
      classify_error m = .ModelUnavailableError ("Model unavailable: " ++ m)) ∧
    ((containsSub (lowerStr m) "quota" || containsSub m "429") = false →
      (containsSub m "503" || containsSub (lowerStr m) "unavailable") = false →
      classify_error m = .PredictionError ("Prediction failed: " ++ m)) ∧
    (∀ (cb : CircuitBreaker) (now : Nat), cb.state = .CLOSED →
      cb.failure_count + 3 < cb.failure_threshold →
      (predict (fun _ => (Except.error m : Except String Unit)) cb now).result =
        .error (.RetryError (classify_error m))) := by
  refine ⟨fun ρ => rfl, ?_, ?_, ?_, ?_⟩
  · intro hq
    simp [classify_error, hq]
  · intro hq hu
    simp [classify_error, hq, hu]
  · intro hq hu
    simp [classify_error, hq, hu]
  · intro cb now hcl hth
    exact (retry_loop_all_fail predict_wait m 2 1 now 0 cb hcl hth).2.2.2.2

/-- Witness for C7: a quota-signal message is classified as
QuotaExceededError, and a generic message survives the full predict
pipeline as the classified kind. -/
theorem C7_error_classification_witness :
    classify_error "rate limited: 429" =
      .QuotaExceededError ("Quota exceeded: " ++ "rate limited: 429") ∧
    (predict (fun _ => (Except.error "backend glitch" : Except String Unit))
        (CircuitBreaker.init 5 60) 0).result =
      .error (.RetryError (classify_error "backend glitch")) := by
  constructor
  · exact (C7_error_classification "rate limited: 429").2.1 (by decide)
  · exact (C7_error_classification "backend glitch").2.2.2.2
      (CircuitBreaker.init 5 60) 0 rfl (by decide)

/-- C1 counterexample: with a fresh default breaker (threshold 5) and an
invoker that always fails, one logical predict run of the source leaves
failure_count = 3 - the breaker absorbed one outcome per retry attempt,
so the retry loop is outside the breaker - whereas the composition the
claim describes (the breaker outermost, wrapping the whole retry loop as
one call) leaves failure_count = 1; the two disagree on this input. -/
theorem C1_counterexample :
    (predict (fun _ => (Except.error "down" : Except String Unit))
        (CircuitBreaker.init 5 60) 0).cb.failure_count = 3 ∧
    (predictSpecNesting (fun _ => (Except.error "down" : Except String Unit))
        (CircuitBreaker.init 5 60) 0).1.failure_count = 1 ∧
    (3 : Nat) ≠ 1 := by
  refine ⟨by decide, by decide, by decide⟩

/-- C1 (amended): the nesting is inverted relative to the claim: the
retry decorator is the outermost resilience layer and CircuitBreaker.call
gates each individual attempt inside the retry loop, with every
per-attempt outcome fed into the breaker state.  Part one: with the
breaker CLOSED and the counter more than 3 below threshold and an
always-failing invoker, one logical predict issues 3 attempts, invokes
the remote call 3 times, feeds 3 failures into the breaker counter, and
surfaces the retry-exhaustion wrapper around the classified failure.
Part two: with the breaker OPEN and the whole retry window inside the
recovery timeout (3 sleeps of at most 10 each), all 3 attempts are gated
by the breaker: the remote call is never invoked, the breaker is
unchanged, and the rejection - re-raised on every attempt - is what the
retry layer finally wraps. -/
theorem C1_retry_outside_breaker :
    (∀ (ρ : Type) (m : String) (cb : CircuitBreaker) (now : Nat),
      cb.state = .CLOSED → cb.failure_count + 3 < cb.failure_threshold →
      (predict (fun _ => (Except.error m : Except String ρ)) cb now).attempts = 3 ∧
      (predict (fun _ => (Except.error m : Except String ρ)) cb now).ninv = 3 ∧
      (predict (fun _ => (Except.error m : Except String ρ)) cb now).cb.failure_count =
        cb.failure_count + 3 ∧
      (predict (fun _ => (Except.error m : Except String ρ)) cb now).result =
        .error (.RetryError (classify_error m))) ∧
    (∀ (ρ : Type) (invoker : Nat → Except String ρ) (cb : CircuitBreaker) (now s : Nat),
      cb.state = .OPEN → cb.last_failure_time = some s →
      ((now : Int) + 30 - (s : Int) < (cb.recovery_timeout : Int)) →
      (predict invoker cb now).ninv = 0 ∧
      (predict invoker cb now).attempts = 3 ∧
      (predict invoker cb now).cb = cb ∧
      (predict invoker cb now).result =
        .error (.RetryError (.ModelUnavailableError "Circuit breaker is OPEN"))) := by
  constructor
  · intro ρ m cb now hcl hth
    simp only [predict]
    obtain ⟨h1, h2, h3, h4, h5⟩ :=
      retry_loop_all_fail predict_wait m 2 1 now 0 cb hcl hth
    exact ⟨h1, h2, h3, h5⟩
  · intro ρ invoker cb now s hopen hlast hwin
    simp only [predict]
    have hrej : ∀ (tt ninv2 : Nat), now ≤ tt → tt ≤ now + 10 * (2 + 1) →
        cb.call tt (make_prediction_request (invoker ninv2)) =
          ⟨cb, .error (.ModelUnavailableError "Circuit breaker is OPEN"), false⟩ := by
      intro tt ninv2 h1 h2
      have hres : cb.should_attempt_reset tt = false := by
        rw [← Bool.not_eq_true, reset_iff hlast]
        omega
      exact call_open_reject hopen hres _
    obtain ⟨h1, h2, h3, h4⟩ := retry_loop_all_rejected invoker 2 1 now 0 cb hrej
    exact ⟨h1, h3, h2, h4⟩

/-- Witness for C1: both parts at concrete inputs: a fresh breaker with
threshold 5 and an always-failing invoker, and an OPEN breaker (last
failure at 0, timeout 60) probed at time 0. -/
theorem C1_retry_outside_breaker_witness :
    (predict (fun _ => (Except.error "down2" : Except String Unit))
        (CircuitBreaker.init 5 60) 0).ninv = 3 ∧
    (predict (fun _ => (Except.ok 1 : Except String Nat))
        (⟨5, 60, 5, some 0, .OPEN⟩ : CircuitBreaker) 0).ninv = 0 := by
  constructor
  · exact (C1_retry_outside_breaker.1 Unit "down2" (CircuitBreaker.init 5 60) 0 rfl
      (by decide)).2.1
  · exact (C1_retry_outside_breaker.2 Nat (fun _ => (Except.ok 1 : Except String Nat))
      (⟨5, 60, 5, some 0, .OPEN⟩ : CircuitBreaker) 0 0 rfl rfl (by decide)).1

lemma chunkListAux_congr (bs : Nat) :
    ∀ (n m : Nat) (l : List α), l.length ≤ n → l.length ≤ m →
      chunkListAux bs n l = chunkListAux bs m l := by
  intro n
  induction n with
  | zero =>
      intro m l h1 _
      cases l with
      | nil => cases m <;> rfl
      | cons x xs => simp at h1
  | succ n ih =>
      intro m l h1 h2
      cases l with
      | nil => cases m <;> rfl
      | cons x xs =>
          cases m with
          | zero => simp at h2
          | succ m =>
              simp only [chunkListAux]
              congr 1
              refine ih m (xs.drop (bs - 1)) ?_ ?_ <;>
                simp only [List.length_drop] <;>
                simp only [List.length_cons] at h1 h2 <;> omega

lemma chunkList_nil (bs : Nat) : chunkList bs ([] : List α) = [] := rfl

lemma chunkList_cons (bs : Nat) (x : α) (xs : List α) :
    chunkList bs (x :: xs) = ((x :: xs).take bs) :: chunkList bs (xs.drop (bs - 1)) := by
  show chunkListAux bs (x :: xs).length (x :: xs) = _
  simp only [List.length_cons, chunkListAux]
  congr 1
  exact chunkListAux_congr bs xs.length (xs.drop (bs - 1)).length (xs.drop (bs - 1))
    (by simp [List.length_drop]) (Nat.le_refl _)

lemma chunkList_flatten (bs : Nat) (hbs : 1 ≤ bs) (l : List α) :
    (chunkList bs l).flatten = l := by
  obtain ⟨k, rfl⟩ : ∃ k, bs = k + 1 := ⟨bs - 1, by omega⟩
  have H : ∀ (n : Nat) (l : List α), l.length ≤ n → (chunkList (k + 1) l).flatten = l := by
    intro n
    induction n with
    | zero =>
        intro l hl
        cases l with
        | nil => simp [chunkList_nil]
        | cons x xs => simp at hl
    | succ n ih =>
        intro l hl
        cases l with
        | nil => simp [chunkList_nil]
        | cons x xs =>
            rw [chunkList_cons]
            simp only [List.flatten_cons]
            have hlen : (xs.drop (k + 1 - 1)).length ≤ n := by
              simp only [List.length_cons] at hl
              simp only [List.length_drop]
              omega
            rw [ih (xs.drop (k + 1 - 1)) hlen]
            simp [List.take_succ_cons, List.take_append_drop]
  exact H l.length l (Nat.le_refl _)

lemma chunkList_mem (bs : Nat) (hbs : 1 ≤ bs) (l : List α) :
    ∀ c ∈ chunkList bs l, c.length ≤ bs ∧ c ≠ [] := by
  have H : ∀ (n : Nat) (l : List α), l.length ≤ n →
      ∀ c ∈ chunkList bs l, c.length ≤ bs ∧ c ≠ [] := by
    intro n
    induction n with
    | zero =>
        intro l hl c hc
        cases l with
        | nil => simp [chunkList_nil] at hc
        | cons x xs => simp at hl
    | succ n ih =>
        intro l hl c hc
        cases l with
        | nil => simp [chunkList_nil] at hc
        | cons x xs =>
            rw [chunkList_cons] at hc
            rcases List.mem_cons.mp hc with rfl | hc2
            · constructor
              · simp [List.length_take]
              · obtain ⟨j, rfl⟩ : ∃ j, bs = j + 1 := ⟨bs - 1, by omega⟩
                simp [List.take_succ_cons]
            · refine ih (xs.drop (bs - 1)) ?_ c hc2
              simp only [List.length_cons] at hl
              simp only [List.length_drop]
              omega
  exact H l.length l (Nat.le_refl _)

lemma chunkList_dropLast (bs : Nat) (hbs : 1 ≤ bs) (l : List α) :
    ∀ c ∈ (chunkList bs l).dropLast, c.length = bs := by
  have H : ∀ (n : Nat) (l : List α), l.length ≤ n →
      ∀ c ∈ (chunkList bs l).dropLast, c.length = bs := by
    intro n
    induction n with
    | zero =>
        intro l hl c hc
        cases l with
        | nil => simp [chunkList_nil] at hc
        | cons x xs => simp at hl
    | succ n ih =>
        intro l hl c hc
        cases l with
        | nil => simp [chunkList_nil] at hc
        | cons x xs =>
            rw [chunkList_cons] at hc
            cases hr : chunkList bs (xs.drop (bs - 1)) with
            | nil => rw [hr] at hc; simp at hc
            | cons c1 cs1 =>
                rw [hr] at hc
                rw [show ((x :: xs).take bs :: c1 :: cs1).dropLast
                    = (x :: xs).take bs :: (c1 :: cs1).dropLast from rfl] at hc
                rcases List.mem_cons.mp hc with rfl | hc2
                · have hne : xs.drop (bs - 1) ≠ [] := by
                    intro hnil
                    rw [hnil, chunkList_nil] at hr
                    cases hr
                  have hxs : bs - 1 < xs.length := by
                    by_contra hcon
                    push_neg at hcon
                    exact hne (List.drop_eq_nil_of_le hcon)
                  simp only [List.length_take, List.length_cons]
                  omega
                · rw [← hr] at hc2
                  refine ih (xs.drop (bs - 1)) ?_ c hc2
                  simp only [List.length_cons] at hl
                  simp only [List.length_drop]
                  omega
  exact H l.length l (Nat.le_refl _)

lemma predict_batch_go_ok (f : List ι → Except PredErr ρ) :
    ∀ cs : List (List ι), (∀ c ∈ cs, ∃ r, f c = .ok r) →
      (predict_batch_go f cs).1 = cs ∧
      ∃ rs, (predict_batch_go f cs).2 = .ok rs ∧
        List.Forall₂ (fun c r => f c = .ok r) cs rs := by
  intro cs
  induction cs with
  | nil => exact fun _ => ⟨rfl, [], rfl, List.Forall₂.nil⟩
  | cons c cs ih =>
      intro hall
      obtain ⟨r, hr⟩ := hall c (List.mem_cons_self _ _)
      obtain ⟨ih1, rs, ih2, ih3⟩ := ih fun c2 hc2 => hall c2 (List.mem_cons_of_mem _ hc2)
      simp only [predict_batch_go, hr, List.append_eq]
      refine ⟨by rw [ih1], r :: rs, by rw [ih2]; rfl, List.Forall₂.cons hr ih3⟩

lemma predict_batch_go_err (f : List ι → Except PredErr ρ) :
    ∀ (cs₁ : List (List ι)) (c : List ι) (cs₂ : List (List ι)) (e : PredErr),
      (∀ c2 ∈ cs₁, ∃ r, f c2 = .ok r) → f c = .error e →
      (predict_batch_go f (cs₁ ++ c :: cs₂)).1 = cs₁ ++ [c] ∧
      (predict_batch_go f (cs₁ ++ c :: cs₂)).2 = .error e := by
  intro cs₁
  induction cs₁ with
  | nil =>
      intro c cs₂ e _ he
      simp [predict_batch_go, he]
  | cons c1 cs1 ih =>
      intro c cs₂ e hall he
      obtain ⟨r, hr⟩ := hall c1 (List.mem_cons_self _ _)
      obtain ⟨ih1, ih2⟩ := ih c cs₂ e (fun c2 hc2 => hall c2 (List.mem_cons_of_mem _ hc2)) he
      simp only [List.cons_append, predict_batch_go, hr, List.append_eq]
      exact ⟨by rw [ih1], by rw [ih2]; rfl⟩

/-- C8: `predict_batch` splits the instance list into consecutive chunks
of at most batch_size (every chunk nonempty, every chunk but the last of
length exactly batch_size, and the chunks concatenate back to the input),
calls `predict` sequentially on each chunk in order - one response per
chunk, in chunk order, when all chunks succeed - and a chunk failure
surfaces that failure and aborts the remaining chunks, the trace of
issued calls stopping at the failed chunk.  Concretely, 100 instances at
batch size 32 produce the four chunks of sizes 32, 32, 32, 4, and a
failure on the second call leaves exactly two issued calls, preventing
calls 3 and 4. -/
theorem C8_predict_batch :
    (∀ (ι ρ : Type) (f : List ι → Except PredErr ρ) (bs : Nat) (xs : List ι), 1 ≤ bs →
      ((chunkList bs xs).flatten = xs ∧
        (∀ c ∈ chunkList bs xs, c.length ≤ bs ∧ c ≠ []) ∧
        (∀ c ∈ (chunkList bs xs).dropLast, c.length = bs)) ∧
      ((∀ c ∈ chunkList bs xs, ∃ r, f c = .ok r) →
        (predict_batch f bs xs).1 = chunkList bs xs ∧
        ∃ rs, (predict_batch f bs xs).2 = .ok rs ∧
          List.Forall₂ (fun c r => f c = .ok r) (chunkList bs xs) rs) ∧
      (∀ (cs₁ : List (List ι)) (c : List ι) (cs₂ : List (List ι)) (e : PredErr),
        chunkList bs xs = cs₁ ++ c :: cs₂ →
        (∀ c2 ∈ cs₁, ∃ r, f c2 = .ok r) → f c = .error e →
        (predict_batch f bs xs).1 = cs₁ ++ [c] ∧
        (predict_batch f bs xs).2 = .error e)) ∧
    ((chunkList 32 (List.range 100)).map List.length = [32, 32, 32, 4] ∧
      (predict_batch failSecond 32 (List.range 100)).1 =
        [(List.range 100).take 32, ((List.range 100).drop 32).take 32] ∧
      (predict_batch failSecond 32 (List.range 100)).2 =
        .error (.PredictionError "chunk 2 failed")) := by
  constructor
  · intro ι ρ f bs xs hbs
    refine ⟨⟨chunkList_flatten bs hbs xs, chunkList_mem bs hbs xs,
      chunkList_dropLast bs hbs xs⟩, ?_, ?_⟩
    · intro hall
      exact predict_batch_go_ok f (chunkList bs xs) hall
    · intro cs₁ c cs₂ e hsplit hall he
      have := predict_batch_go_err f cs₁ c cs₂ e hall he
      simpa only [predict_batch, hsplit] using this
  · refine ⟨by decide, by decide, by decide⟩

/-- Witness for C8 at batch size 2 over three instances. -/
theorem C8_predict_batch_witness :
    (chunkList 2 [10, 11, 12]).flatten = [10, 11, 12] :=
  ((C8_predict_batch.1 Nat Nat (fun c => .ok c.length) 2 [10, 11, 12] (by decide)).1).1

/-- C9: `predict_batch_parallel` returns exactly one slot per input
sub-batch, slot i holding the outcome of input list i (the gather
preserves submission order regardless of completion order); a failed
sub-batch yields an empty list in its slot instead of aborting the
siblings, and the operation always returns a full result list, never
raising for an individual sub-batch failure. -/
theorem C9_predict_parallel (f : List ι → Except PredErr (List ρ))
    (batches : List (List ι)) :
    (predict_batch_parallel f batches).length = batches.length ∧
    (∀ (i : Nat) (h : i < batches.length)
      (h2 : i < (predict_batch_parallel f batches).length),
      (predict_batch_parallel f batches).get ⟨i, h2⟩ =
        match f (batches.get ⟨i, h⟩) with
        | .ok r => r
        | .error _ => []) ∧
    (∀ (i : Nat) (h : i < batches.length)
      (h2 : i < (predict_batch_parallel f batches).length) (e : PredErr),
      f (batches.get ⟨i, h⟩) = .error e →
      (predict_batch_parallel f batches).get ⟨i, h2⟩ = []) := by
  refine ⟨by simp [predict_batch_parallel], ?_, ?_⟩
  · intro i h h2
    simp [predict_batch_parallel]
  · intro i h h2 e he
    rw [List.get_eq_getElem] at he
    simp [predict_batch_parallel, he]

/-- Witness for C9 at the spec scenario [[0], [1], [2]] with the middle
sub-batch failing: slot 2 is the empty list, the siblings are intact. -/
theorem C9_predict_parallel_witness :
    (predict_batch_parallel
        (fun l => if l = [1] then Except.error (PredErr.PredictionError "sub 2 failed")
          else Except.ok l)
        [[0], [1], [2]]).get ⟨1, by decide⟩ = [] :=
  (C9_predict_parallel
      (fun l => if l = [1] then Except.error (PredErr.PredictionError "sub 2 failed")
        else Except.ok l)
      [[0], [1], [2]]).2.2 1 (by decide) (by decide)
    (PredErr.PredictionError "sub 2 failed") (by decide)
